import Mathlib

/-!
Verification of the step/cache engine in `allennlp/steps/step.py`.

The Python source is shallowly embedded: the heterogeneous kwargs trees
become the inductive `Value`, a `Step` instance becomes a `StepInfo`
record (class-level constants plus per-instance state) together with its
kwargs, caches become explicit association lists threaded through the
functions, and filesystem effects of the directory cache become an
explicit `Slot` state plus an event trace.  Fallible operations return
`Except` or pair their result with an error option.
-/

set_option maxRecDepth 8000

namespace StepPy

/-- A deterministic, kernel-reducible string order used by the modelled
object hash (`String._lt_` of the standard library does not reduce in the
kernel, so the comparison is spelled out on character codes). -/
def charsLe : List Char → List Char → Bool
  | [], _ => true
  | _ :: _, [] => false
  | a :: as, b :: bs =>
      if a.toNat < b.toNat then true
      else if b.toNat < a.toNat then false
      else charsLe as bs

/-- Lexicographic order on strings via `charsLe`. -/
def strLe (a b : String) : Bool := charsLe a.data b.data

/-- Insertion into a sorted list of strings. -/
def insertSorted (s : String) : List String → List String
  | [] => [s]
  | t :: rest => if strLe s t then s :: t :: rest else t :: insertSorted s rest

/-- Insertion sort on strings; used to make the modelled object hash
order-insensitive for sets and mappings. -/
def sortStrings : List String → List String
  | [] => []
  | s :: rest => insertSorted s (sortStrings rest)

/-- Class-level constants of a `Step` subclass together with the
per-instance state that `Step.__init__` leaves behind:

* `className` — the class tag used as the fingerprint head;
* `deterministic` — the `DETERMINISTIC` class constant;
* `version` — the `VERSION` class constant;
* `name` — `self.name` (a human-readable label; after `__init__` it is
  always set, defaulting to the fingerprint);
* `cacheResults` — the resolved `self.cache_results` policy;
* `randomSeed` — the random bits drawn by `unique_id` for a
  non-deterministic step (`random.getrandbits(...)`), carried explicitly
  so the embedding stays pure;
* `uidCache` — `self.unique_id_cache`. -/
structure StepInfo where
  className : String
  deterministic : Bool
  version : Option String
  name : String
  cacheResults : Bool
  randomSeed : Int
  uidCache : Option String
deriving DecidableEq, Repr

/-- A kwarg input value: primitive, string, list, set, mapping, or a
nested `Step` (its `StepInfo` together with its own kwargs).  Python sets
and dicts are modelled as lists; all set operations in the source are
used only through membership, which the list model preserves. -/
inductive Value where
  | prim (n : Int)
  | str (s : String)
  | seq (elems : List Value)
  | set (elems : List Value)
  | dict (entries : List (String × Value))
  | step (info : StepInfo) (kwargs : List (String × Value))
deriving Repr

/-- A `Step` instance: its record of instance state and its kwargs. -/
structure Step where
  info : StepInfo
  kwargs : List (String × Value)
deriving Repr

/-- The view of a `Step` as a `Value` node. -/
def Step.toValue (s : Step) : Value := .step s.info s.kwargs

/-- A canonicalized object as fed to `hash_object`: the result of
`replace_steps_with_hashes`, where every nested step has been replaced
by its fingerprint string. -/
inductive HVal where
  | prim (n : Int)
  | str (s : String)
  | seq (elems : List HVal)
  | set (elems : List HVal)
  | dict (entries : List (String × HVal))
deriving Repr

mutual

/-- Canonical encoding of an `HVal`, used to model `hash_object`. -/
def hvalEncode : HVal → String
  | .prim n => "i:" ++ toString n
  | .str s => "s:" ++ s
  | .seq vs => "l[" ++ String.intercalate "," (hvalEncodeList vs) ++ "]"
  | .set vs => "e[" ++ String.intercalate "," (sortStrings (hvalEncodeList vs)) ++ "]"
  | .dict kvs => "d[" ++ String.intercalate "," (sortStrings (hvalEncodeKVs kvs)) ++ "]"

def hvalEncodeList : List HVal → List String
  | [] => []
  | v :: rest => hvalEncode v :: hvalEncodeList rest

def hvalEncodeKVs : List (String × HVal) → List String
  | [] => []
  | (k, v) :: rest => (k ++ "=" ++ hvalEncode v) :: hvalEncodeKVs rest

end

/-- Modelled from the spec: `hash_object` lives in `allennlp/common/util.py`,
which is not under `src/`.  The spec requires a deterministic object hash
that is order-insensitive for sets and mappings and order-sensitive for
sequences.  It is modelled as a canonical string encoding: sequence
elements are encoded in order, set elements and mapping entries are
sorted before being joined. -/
def hashObject (v : HVal) : String := hvalEncode v

mutual

/-- `replace_steps_with_hashes` from `Step.unique_id` (step.py:469-479):
replaces every nested `Step` by its fingerprint, recursing through lists,
sets and dicts.  The `.step` case inlines `unique_id` (step.py:459-487):
consult `unique_id_cache`, else build
`class name [ "-" VERSION ] "-"` followed by the first 32 characters of
`hash_object` of the canonicalized kwargs (deterministic step) or of the
drawn random bits (non-deterministic step). -/
def replaceHashes : Value → HVal
  | .prim n => .prim n
  | .str s => .str s
  | .seq vs => .seq (replaceHashesList vs)
  | .set vs => .set (replaceHashesList vs)
  | .dict kvs => .dict (replaceHashesKVs kvs)
  | .step info kwargs =>
      .str (match info.uidCache with
            | some u => u
            | none =>
                info.className
                  ++ (match info.version with | some v => "-" ++ v | none => "")
                  ++ "-"
                  ++ (if info.deterministic then
                        (hashObject (.dict (replaceHashesKVs kwargs))).take 32
                      else
                        (hashObject (.prim info.randomSeed)).take 32))

def replaceHashesList : List Value → List HVal
  | [] => []
  | v :: rest => replaceHashes v :: replaceHashesList rest

def replaceHashesKVs : List (String × Value) → List (String × HVal)
  | [] => []
  | (k, v) :: rest => (k, replaceHashes v) :: replaceHashesKVs rest

end

/-- The fingerprint computation of `Step.unique_id` (step.py:459-487) for
an instance whose `unique_id_cache` is empty. -/
def computeUid (info : StepInfo) (kwargs : List (String × Value)) : String :=
  info.className
    ++ (match info.version with | some v => "-" ++ v | none => "")
    ++ "-"
    ++ (if info.deterministic then
          (hashObject (.dict (replaceHashesKVs kwargs))).take 32
        else
          (hashObject (.prim info.randomSeed)).take 32)

/-- `Step.unique_id` as a pure function of the instance: the memoized
value when `unique_id_cache` is set, else the computed fingerprint. -/
def uidOf (info : StepInfo) (kwargs : List (String × Value)) : String :=
  match info.uidCache with
  | some u => u
  | none => computeUid info kwargs

/-- The fingerprint of a step. -/
def Step.uid (s : Step) : String := uidOf s.info s.kwargs

/-- `Step.unique_id` with its memoization made explicit: returns the
fingerprint together with the instance as updated by the call
(`self.unique_id_cache` filled on the first call). -/
def Step.uniqueIdS (s : Step) : String × Step :=
  match s.info.uidCache with
  | some u => (u, s)
  | none =>
      let u := computeUid s.info s.kwargs
      (u, ⟨{ s.info with uidCache := some u }, s.kwargs⟩)

/-- Errors raised by the embedded code, modelling `ConfigurationError`,
`ValueError` and `AttributeError` sites by distinct constructors. -/
inductive PyError where
  | notCacheableStep
  | invalidCacheResultsValue
  | duplicateStepName (name : String)
  | cannotParseSteps (names : List String)
  | metadataAlreadyExists
  | onlyOneRunAtATime
  | noUniqueIdAttribute
deriving DecidableEq, Repr

/-- The cache-policy resolution of `Step.__init__` (step.py:198-232).
`cacheResults` is the explicit user choice (`None` = unset),
`deterministic` and `cacheable` are the class constants `DETERMINISTIC`
and `CACHEABLE`.  The `cache_results is True` branch tests
`if not self.CACHEABLE`, and in Python both `None` and `False` are
falsy, which `pyFalsy` reproduces. -/
def pyFalsy : Option Bool → Bool
  | some true => false
  | some false => true
  | none => true

/-- See `pyFalsy`; returns the resolved `self.cache_results`. -/
def resolveCacheResults (cacheResults : Option Bool) (deterministic : Bool)
    (cacheable : Option Bool) : Except PyError Bool :=
  match cacheResults with
  | some true =>
      if pyFalsy cacheable then .error .notCacheableStep
      else .ok true
  | some false => .ok false
  | none =>
      match deterministic, cacheable with
      | false, none => .ok false
      | true, none => .ok true
      | false, some false => .ok false
      | true, some false => .ok false
      | false, some true => .ok true
      | true, some true => .ok true

mutual

/-- `dependencies_internal` from `Step.dependencies` (step.py:498-511).
The Python `elif` chain tests, in order: `Step`, `str`, `Iterable`,
`Dict`.  A Python `dict` is an `Iterable` *over its keys*, so a dict hits
the `Iterable` branch and only its keys (strings) are traversed; the
`Dict` branch that would have recursed into `o.values()` is unreachable.
`depsDictKeys` spells out that key iteration. -/
def depsVal : Value → List Step
  | .step info kwargs => [⟨info, kwargs⟩]
  | .str _ => []
  | .seq vs => depsList vs
  | .set vs => depsList vs
  | .dict kvs => depsDictKeys kvs
  | .prim _ => []

def depsList : List Value → List Step
  | [] => []
  | v :: rest => depsVal v ++ depsList rest

def depsDictKeys : List (String × Value) → List Step
  | [] => []
  | (k, _) :: rest => depsVal (.str k) ++ depsDictKeys rest

end

/-- `Step.dependencies` (step.py:498-511): `dependencies_internal` is
applied to `self.kwargs.values()` (an iterable of the kwarg values) and
the yielded steps are collected.  The Python `set(...)` is modelled as
the yielded list; set membership coincides with list membership. -/
def Step.dependencies (s : Step) : List Step :=
  depsList (s.kwargs.map Prod.snd)

mutual

/-- `Step.dry_run` together with its inner `find_steps_from_inputs`
(step.py:438-457), with the mutated `cached_steps` set threaded
explicitly as a list of fingerprints (Python's set of steps compares by
`unique_id`, see `Step.__eq__`/`__hash__`).  The `.step` case is
`dry_run` itself: an already-cached step yields `(name, True)` and
returns without visiting its inputs; otherwise the step's kwargs dict is
traversed (`find_steps_from_inputs` recurses through lists, sets and
dict values), then `(name, False)` is yielded and the step is added to
the set. -/
def dryRunVal : Value → List String → List (String × Bool) × List String
  | .step info kwargs, cached =>
      if uidOf info kwargs ∈ cached then ([(info.name, true)], cached)
      else
        let r := dryRunKVs kwargs cached
        (r.1 ++ [(info.name, false)], uidOf info kwargs :: r.2)
  | .seq vs, cached => dryRunList vs cached
  | .set vs, cached => dryRunList vs cached
  | .dict kvs, cached => dryRunKVs kvs cached
  | .prim _, cached => ([], cached)
  | .str _, cached => ([], cached)

def dryRunList : List Value → List String → List (String × Bool) × List String
  | [], cached => ([], cached)
  | v :: rest, cached =>
      let r1 := dryRunVal v cached
      let r2 := dryRunList rest r1.2
      (r1.1 ++ r2.1, r2.2)

def dryRunKVs : List (String × Value) → List String → List (String × Bool) × List String
  | [], cached => ([], cached)
  | (_, v) :: rest, cached =>
      let r1 := dryRunVal v cached
      let r2 := dryRunKVs rest r1.2
      (r1.1 ++ r2.1, r2.2)

end

/-- `Step.dry_run(cached_steps)` on a step: the emitted `(name, flag)`
pairs of a full walk together with the final `cached_steps` set. -/
def Step.dryRun (s : Step) (cached : List String) :
    List (String × Bool) × List String :=
  dryRunVal s.toValue cached

mutual

/-- All fingerprints of the steps occurring anywhere in a value tree
(proof infrastructure for the dry-run bookkeeping, not source code). -/
def stepUidsVal : Value → List String
  | .step info kwargs => uidOf info kwargs :: stepUidsKVs kwargs
  | .seq vs => stepUidsList vs
  | .set vs => stepUidsList vs
  | .dict kvs => stepUidsKVs kvs
  | .prim _ => []
  | .str _ => []

def stepUidsList : List Value → List String
  | [] => []
  | v :: rest => stepUidsVal v ++ stepUidsList rest

def stepUidsKVs : List (String × Value) → List String
  | [] => []
  | (_, v) :: rest => stepUidsVal v ++ stepUidsKVs rest

end

mutual

/-- No step in the tree shares its fingerprint with a step nested
strictly below it (fingerprints are 32-character hash truncations, so
this rules out truncation collisions along a path; proof infrastructure,
not source code). -/
def noCollideVal : Value → Bool
  | .step info kwargs =>
      decide (uidOf info kwargs ∉ stepUidsKVs kwargs) && noCollideKVs kwargs
  | .seq vs => noCollideList vs
  | .set vs => noCollideList vs
  | .dict kvs => noCollideKVs kvs
  | .prim _ => true
  | .str _ => true

def noCollideList : List Value → Bool
  | [] => true
  | v :: rest => noCollideVal v && noCollideList rest

def noCollideKVs : List (String × Value) → Bool
  | [] => true
  | (_, v) :: rest => noCollideVal v && noCollideKVs rest

end

/-- The number of pairs a dry-run walk emitted with flag `False`. -/
def falseCount (outs : List (String × Bool)) : Nat :=
  (outs.filter (fun p => p.2 == false)).length

/-- On-disk state of one fingerprint directory `<root>/<fingerprint>/`
of a `DirectoryStepCache`, plus the in-process weak-cache entry for that
fingerprint. -/
structure Slot where
  payloadWritten : Bool
  tempMetadataExists : Bool
  metadataExists : Bool
  weakCached : Bool
deriving DecidableEq, Repr

/-- Index of the last '.' in a character list, when there is one. -/
def lastDotIdx : List Char → Option Nat
  | [] => none
  | c :: rest =>
      match lastDotIdx rest with
      | some i => some (i + 1)
      | none => if c = '.' then some 0 else none

/-- `pathlib.PurePath.with_suffix` as used at step.py:133, on the final
path component: the existing suffix — everything from the last dot,
provided that dot is not the leading character — is *replaced* by the
new suffix; a name without a suffix just gets the new suffix appended.
In particular `metadata.json` becomes `metadata.temp`, not
`metadata.json.temp`. -/
def withSuffix (name sfx : String) : String :=
  match lastDotIdx name.data with
  | none => name ++ sfx
  | some i => if i = 0 then name ++ sfx else String.mk (name.data.take i) ++ sfx

/-- The commit-marker file name of a `DirectoryStepCache` slot. -/
def metadataFileName : String := "metadata.json"

/-- The temporary metadata file name:
`metadata_location.with_suffix(".temp")` (step.py:133). -/
def tempMetadataFileName : String := withSuffix metadataFileName ".temp"

/-- Filesystem/cache operations performed by
`DirectoryStepCache.__setitem__`, in program order; file operations
carry the file names (relative to the slot directory) they act on. -/
inductive FsEvent where
  | mkdirLocation
  | formatWrite
  | computeChecksum
  | writeFile (name : String)
  | populateWeakCache
  | renameFile (src dst : String)
  | unlinkFile (name : String)
deriving DecidableEq, Repr

/-- Failure injection points inside `DirectoryStepCache.__setitem__`:
the write can fail inside `format.write`, inside `format.checksum`,
while dumping `metadata.json.temp`, or at the final rename; `noFail`
is the successful execution. -/
inductive PutFail where
  | noFail
  | duringFormatWrite
  | duringChecksum
  | duringJsonDump
  | duringRename
deriving DecidableEq, Repr

/-- Outcome of a put attempt: `none` for success, otherwise the error
that propagated out (`metadataAlreadyExists` for the guard at
step.py:131-132, `writeFailed` for a re-raised exception from the `try`
block). -/
inductive PutOutcome where
  | success
  | alreadyExists
  | writeFailed
deriving DecidableEq, Repr

/-- `DirectoryStepCache.__setitem__` (step.py:126-147) on the slot of one
fingerprint, with an injected failure point.  Program order:
`location.mkdir`; fail if `metadata.json` exists ("will not overwrite");
then inside `try`: `format.write`, `format.checksum`, dump the metadata
object `{step: fingerprint, checksum: ...}` to the temporary file
`metadata_location.with_suffix(".temp")` — which is `metadata.temp`,
since `with_suffix` replaces the `.json` suffix — populate the weak
in-memory cache, and rename that temporary file to `metadata.json`.
The bare `except` unlinks the temporary file (`missing_ok=True`) and
re-raises.  Returns the final slot, the trace of performed operations,
and the outcome. -/
def dirCachePut (slot : Slot) (fail : PutFail) :
    Slot × List FsEvent × PutOutcome :=
  if slot.metadataExists then
    (slot, [.mkdirLocation], .alreadyExists)
  else if fail = .duringFormatWrite then
    ({ slot with tempMetadataExists := false },
     [.mkdirLocation, .formatWrite, .unlinkFile tempMetadataFileName], .writeFailed)
  else if fail = .duringChecksum then
    ({ slot with payloadWritten := true, tempMetadataExists := false },
     [.mkdirLocation, .formatWrite, .computeChecksum,
      .unlinkFile tempMetadataFileName],
     .writeFailed)
  else if fail = .duringJsonDump then
    ({ slot with payloadWritten := true, tempMetadataExists := false },
     [.mkdirLocation, .formatWrite, .computeChecksum,
      .writeFile tempMetadataFileName, .unlinkFile tempMetadataFileName],
     .writeFailed)
  else if fail = .duringRename then
    ({ slot with payloadWritten := true, tempMetadataExists := false,
                 weakCached := true },
     [.mkdirLocation, .formatWrite, .computeChecksum,
      .writeFile tempMetadataFileName, .populateWeakCache,
      .unlinkFile tempMetadataFileName],
     .writeFailed)
  else
    ({ slot with payloadWritten := true, tempMetadataExists := false,
                 metadataExists := true, weakCached := true },
     [.mkdirLocation, .formatWrite, .computeChecksum,
      .writeFile tempMetadataFileName, .populateWeakCache,
      .renameFile tempMetadataFileName metadataFileName],
     .success)

/-- `DirectoryStepCache.__contains__` (step.py:107-114) restricted to one
fingerprint's slot: the fingerprint is in the weak in-memory cache, or
`<root>/<fingerprint>/metadata.json` exists. -/
def dirCacheContains (slot : Slot) : Bool :=
  slot.weakCached || slot.metadataExists

/-- A materialized result value, as produced by `run` and stored in the
cache.  `_replace_steps_with_results` maps kwarg values to results, so
the constructors mirror `Value`; `output uid kwargs` stands for the value
returned by `run(**kwargs)` of the step with fingerprint `uid` (the
embedding synthesizes a distinct result per step and effective kwargs;
run itself never fails here). -/
inductive RVal where
  | prim (n : Int)
  | str (s : String)
  | seq (elems : List RVal)
  | set (elems : List RVal)
  | dict (entries : List (String × RVal))
  | output (uid : String) (kwargs : List (String × RVal))
deriving Repr

/-- `MemoryStepCache.__setitem__` (step.py:78-82): stores under the
step's fingerprint only when `step.cache_results` holds, else warns and
skips. -/
def memoryCacheSet (cacheResults : Bool) (uid : String) (v : RVal)
    (cache : List (String × RVal)) : List (String × RVal) :=
  if cacheResults then (uid, v) :: cache else cache

mutual

/-- `Step.result` (step.py:403-417) together with
`Step._replace_steps_with_results` (step.py:390-401) over a
`MemoryStepCache`, with the cache threaded explicitly and every `run`
invocation recorded (by fingerprint) in a trace.  The `.step` case is
`result`: if `self in cache` (`MemoryStepCache.__contains__` checks the
fingerprint), the cached value is returned and `run` is not invoked;
otherwise kwargs are materialized, `run` is invoked, and the result is
stored iff `self.cache_results` (both `result`'s own guard and the guard
inside `MemoryStepCache.__setitem__` test it).  The iterator-to-list
coercion of step.py:414-415 has no counterpart because `RVal` has no
iterator values. -/
def resultVal : Value → List (String × RVal) →
    RVal × List (String × RVal) × List String
  | .prim n, cache => (.prim n, cache, [])
  | .str s, cache => (.str s, cache, [])
  | .seq vs, cache =>
      let r := resultList vs cache
      (.seq r.1, r.2.1, r.2.2)
  | .set vs, cache =>
      let r := resultList vs cache
      (.set r.1, r.2.1, r.2.2)
  | .dict kvs, cache =>
      let r := resultKVs kvs cache
      (.dict r.1, r.2.1, r.2.2)
  | .step info kwargs, cache =>
      match cache.lookup (uidOf info kwargs) with
      | some v => (v, cache, [])
      | none =>
          let r := resultKVs kwargs cache
          let out := RVal.output (uidOf info kwargs) r.1
          let cache2 :=
            if info.cacheResults then
              memoryCacheSet info.cacheResults (uidOf info kwargs) out r.2.1
            else r.2.1
          (out, cache2, r.2.2 ++ [uidOf info kwargs])

def resultList : List Value → List (String × RVal) →
    List RVal × List (String × RVal) × List String
  | [], cache => ([], cache, [])
  | v :: rest, cache =>
      let r1 := resultVal v cache
      let r2 := resultList rest r1.2.1
      (r1.1 :: r2.1, r2.2.1, r1.2.2 ++ r2.2.2)

def resultKVs : List (String × Value) → List (String × RVal) →
    List (String × RVal) × List (String × RVal) × List String
  | [], cache => ([], cache, [])
  | (k, v) :: rest, cache =>
      let r1 := resultVal v cache
      let r2 := resultKVs rest r1.2.1
      ((k, r1.1) :: r2.1, r2.2.1, r1.2.2 ++ r2.2.2)

end

/-- `Step.result(cache)` on a step: the returned value, the cache after
the call, and the trace of `run` invocations (fingerprints, in
invocation order). -/
def Step.result (s : Step) (cache : List (String × RVal)) :
    RVal × List (String × RVal) × List String :=
  resultVal s.toValue cache

/-- The message of the re-entrancy guard of `Step._run_with_temp_dir`. -/
def onlyOneRunMsg : String := "You can only run a Step's run() method once at a time."

/-- The scratch directory `_run_with_temp_dir` hands to `run`: for a
cache without a step directory, an ephemeral directory named after the
fingerprint (`<uid>-....temp`); for a directory cache, `<step dir>/run`. -/
def scratchDir (uid : String) (stepDir : Option String) : String :=
  match stepDir with
  | none => uid ++ "-scratch.temp"
  | some d => d ++ "/run"

/-- `Step._run_with_temp_dir` (step.py:365-384).  State is the instance
field `self.temp_dir_for_run`; `stepDir` is `cache.path_for_step(self)`;
`run` is the step's `run` body as a function of the scratch directory it
may use, returning either a value or a raised error.  If the guard is
already set, a `ValueError` is raised before any mutation; otherwise the
guard is set, `run` executes, and the `finally` clause clears the guard
on both the success and the failure path.  Returns the call outcome and
the instance's `temp_dir_for_run` after the call. -/
def runWithTempDir (tempDirForRun : Option String) (uid : String)
    (stepDir : Option String) (run : String → Except String Int) :
    Except String Int × Option String :=
  match tempDirForRun with
  | some d => (.error onlyOneRunMsg, some d)
  | none => (run (scratchDir uid stepDir), none)

/-- A Python object as seen by `Step.__eq__`: a `Step`, a non-`Step`
object that happens to expose a `unique_id` method, or a plain object
without one. -/
inductive PyObj where
  | stepObj (info : StepInfo) (kwargs : List (String × Value))
  | withUniqueId (u : String)
  | plainObj (n : Int)
deriving Repr

/-- `isinstance(o, Step)`. -/
def isStepInstance : PyObj → Bool
  | .stepObj _ _ => true
  | .withUniqueId _ => false
  | .plainObj _ => false

/-- `o.unique_id()` on an arbitrary object: an `AttributeError` when the
object has no such method. -/
def callUniqueId : PyObj → Except PyError String
  | .stepObj info kwargs => .ok (uidOf info kwargs)
  | .withUniqueId u => .ok u
  | .plainObj _ => .error .noUniqueIdAttribute

/-- `Step.__eq__` (step.py:492-496): `if isinstance(self, Step)` — note
it tests `self`, not `other` — `return self.unique_id() ==
other.unique_id()`, else `return False`. -/
def stepEq (selfObj otherObj : PyObj) : Except PyError Bool :=
  if isStepInstance selfObj then
    match callUniqueId selfObj with
    | .error e => .error e
    | .ok a =>
        match callUniqueId otherObj with
        | .error e => .error e
        | .ok b => .ok (a == b)
  else .ok false

/-- The raw params of one step as consumed by the resolver, abstracted
to the only aspect `step_graph_from_params` observes through
`Step.from_params`: the set of step names the params reference.
`Step.from_params` (step.py:238-360) raises `_RefStep.MissingStepError`
exactly when a referenced name is not among `existing_steps` (both for a
bare string where a step is expected, step.py:319-324, and for a
constructed `_RefStep`, step.py:326-331); all other construction
machinery (registry lookup, type inference) lives outside `src/` and is
irrelevant to claim-level control flow, so a parse here succeeds iff all
referenced names are already parsed. -/
structure StepParams where
  refs : List String
deriving DecidableEq, Repr

/-- Whether `Step.from_params` succeeds given the already-parsed steps:
no referenced name is missing (else `_RefStep.MissingStepError`). -/
def fromParamsSucceeds (parsed : List String) (p : StepParams) : Bool :=
  p.refs.all (fun r => parsed.contains r)

/-- One pass of the resolver loop of `step_graph_from_params`
(step.py:549-569): pop each entry of `unparsed_steps` in turn (Python
pops from a dict; the order is modelled as list order), fail on a name
already in `parsed_steps`, parse it if its references resolve
(incrementing `steps_parsed`), else defer it.  Returns the parsed names,
the deferred entries, and the pass's `steps_parsed` count. -/
def runPass : List (String × StepParams) → List String →
    Except PyError (List String × List (String × StepParams) × Nat)
  | [], parsed => .ok (parsed, [], 0)
  | (name, p) :: rest, parsed =>
      if parsed.contains name then .error (.duplicateStepName name)
      else if fromParamsSucceeds parsed p then
        match runPass rest (parsed ++ [name]) with
        | .error e => .error e
        | .ok (parsed', deferred, progress) => .ok (parsed', deferred, progress + 1)
      else
        match runPass rest parsed with
        | .error e => .error e
        | .ok (parsed', deferred, progress) => .ok (parsed', (name, p) :: deferred, progress)

/-- The outer loop of `step_graph_from_params` (step.py:549-569),
restructured pass-by-pass: after a pass, an empty deferred queue means
convergence; a pass with `steps_parsed == 0` and a non-empty deferred
queue raises the "Cannot parse steps ..." `ConfigurationError` listing
the deferred step names; otherwise the deferred queue is swapped in and
the loop continues.  The Python `while` needs no fuel (every continued
pass parsed at least one step, so the deferred queue shrinks); the fuel
parameter only makes the recursion structural, and
`stepGraphFromParams` supplies more fuel than there can be passes. -/
def stepGraphLoop : Nat → List (String × StepParams) → List String →
    Except PyError (List String)
  | 0, unparsed, _ => .error (.cannotParseSteps (unparsed.map Prod.fst))
  | fuel + 1, unparsed, parsed =>
      match runPass unparsed parsed with
      | .error e => .error e
      | .ok (parsed', deferred, progress) =>
          if deferred = [] then .ok parsed'
          else if progress = 0 then .error (.cannotParseSteps (deferred.map Prod.fst))
          else stepGraphLoop fuel deferred parsed'

/-- `step_graph_from_params(params)`: run the loop from the input
mapping with an empty `parsed_steps`; returns the parsed step names. -/
def stepGraphFromParams (params : List (String × StepParams)) :
    Except PyError (List String) :=
  stepGraphLoop (params.length + 1) params []

/-- The bookkeeping invariant of a dry-run traversal: the final
`cached_steps` extends the initial one by a duplicate-free block of
fingerprints that were not cached before, drawn from the steps of the
traversed tree, and the number of `(name, False)` pairs emitted equals
the number of those newly added fingerprints. -/
def DryInv (uids : List String) (cached : List String)
    (r : List (String × Bool) × List String) : Prop :=
  ∃ news : List String,
    r.2 = news ++ cached
    ∧ falseCount r.1 = news.length
    ∧ news.Nodup
    ∧ (∀ u ∈ news, u ∉ cached)
    ∧ (∀ u ∈ news, u ∈ uids)

theorem replaceHashes_step (info : StepInfo) (kwargs : List (String × Value)) :
    replaceHashes (.step info kwargs) = .str (uidOf info kwargs) := by
  cases h : info.uidCache <;> simp [replaceHashes, uidOf, computeUid, h]

theorem falseCount_append (a b : List (String × Bool)) :
    falseCount (a ++ b) = falseCount a + falseCount b := by
  simp [falseCount, List.filter_append]

/-- Claim C3, counterexample: a step class with `CACHEABLE` unset
(`None`) and explicit `cache_results=True` fails construction with
"not a cacheable step", although the claim says construction succeeds
for every `CACHEABLE` value other than `False`. -/
theorem C3_counterexample :
    resolveCacheResults (some true) true none = .error .notCacheableStep := by rfl

/-- Claim C3 (amended): with explicit `cache_results=True`, construction
fails with "not a cacheable step" whenever the class constant `CACHEABLE`
is not explicitly `True` — both `False` and unset (`None`) are falsy
under `if not self.CACHEABLE` — and succeeds resolving `cache_results`
to `True` exactly when `CACHEABLE` is `True`, for either value of
`DETERMINISTIC`. -/
theorem C3_explicit_true_requires_cacheable (d : Bool) (k : Option Bool) :
    resolveCacheResults (some true) d k =
      if k = some true then .ok true else .error .notCacheableStep := by
  rcases k with _ | b
  · simp [resolveCacheResults, pyFalsy]
  · cases b <;> simp [resolveCacheResults, pyFalsy]

/-- Claim C1: evaluation of `Step.dependencies` at the failing input.  A
step whose only kwarg is a mapping holding a nested step as a value has
an empty dependency set: the mapping is consumed by the `Iterable`
branch, which iterates its keys, so the nested step is never reached and
the `Dict` branch of `dependencies_internal` is dead code.  The claim
(and the dead branch itself) say the nested step is a member. -/
theorem C1_dict_value_step_missed :
    Step.dependencies
      ⟨⟨"Outer", true, none, "outer", true, 0, none⟩,
        [("x", .dict [("k", .step ⟨"Inner", true, none, "inner", true, 0, none⟩ [])])]⟩
      = [] := by
  simp [Step.dependencies, depsList, depsVal, depsDictKeys]

/-- Claim C10: for a `Step` receiver, `Step.__eq__` always takes the
`isinstance(self, Step)` branch — the test looks at `self`, which is
always a `Step` — so `s == x` always evaluates `x.unique_id()`: it
returns `self.unique_id() == x.unique_id()` when `x` has a `unique_id`
method (even when `x` is not a `Step`), raises `AttributeError` when it
does not, and the `else: return False` branch is unreachable. -/
theorem C10_eq_always_queries_other (s : Step) (x : PyObj) :
    stepEq (.stepObj s.info s.kwargs) x =
      (match callUniqueId x with
       | .ok u => .ok (s.uid == u)
       | .error e => .error e) := by
  cases x <;> simp [stepEq, isStepInstance, callUniqueId, Step.uid]

/-- Claim C9: `_run_with_temp_dir` raises "only one run at a time" when
`temp_dir_for_run` is already set (leaving the active run's guard in
place), and on a non-re-entrant call it hands `run` the scratch
directory, propagates `run`'s outcome unchanged (success or raised
error), and clears the guard on every exit path — so an immediately
following non-overlapping call proceeds to `run` again instead of
hitting the guard. -/
theorem C9_run_reentrancy_guard (uid : String) (stepDir : Option String)
    (run : String → Except String Int) (d : String) :
    runWithTempDir (some d) uid stepDir run = (.error onlyOneRunMsg, some d)
    ∧ (runWithTempDir none uid stepDir run).2 = none
    ∧ (runWithTempDir none uid stepDir run).1 = run (scratchDir uid stepDir)
    ∧ (runWithTempDir ((runWithTempDir none uid stepDir run).2) uid stepDir run).1
        = run (scratchDir uid stepDir) := by
  simp [runWithTempDir]

/-- Claim C2, counterexample: a put on a fresh slot that fails at the
final rename re-raises and leaves no `metadata.json`, but the weak
in-memory cache was populated just before the rename, so
`DirectoryStepCache.__contains__` still reports the fingerprint as
present in this process — the half-written slot does satisfy
`contains`, contrary to the claim. -/
theorem C2_counterexample :
    (dirCachePut ⟨false, false, false, false⟩ .duringRename).1.metadataExists = false
    ∧ dirCacheContains (dirCachePut ⟨false, false, false, false⟩ .duringRename).1 = true
    ∧ (dirCachePut ⟨false, false, false, false⟩ .duringRename).2.2 = .writeFailed := by
  exact ⟨rfl, rfl, rfl⟩

/-- Claim C2 (amended): `DirectoryStepCache.__setitem__` fails when
`<root>/<fingerprint>/metadata.json` already exists, and on any failure
during the write it unlinks the temporary metadata file and re-raises,
so that after any put attempt on a previously uncommitted slot the
metadata file exists iff the put succeeded and no temporary metadata
file remains; the on-disk commit marker therefore never shows a
half-written slot, but a put that fails at the final rename has already
populated the in-process weak cache, so `contains` can still report the
fingerprint in the same process. -/
theorem C2_put_commit_discipline (slot : Slot) (fail : PutFail) :
    (slot.metadataExists = true →
        dirCachePut slot fail = (slot, [.mkdirLocation], .alreadyExists))
    ∧ (slot.metadataExists = false →
        ((dirCachePut slot fail).1.metadataExists = true ↔ fail = .noFail)
        ∧ ((dirCachePut slot fail).2.2 = .success ↔ fail = .noFail)
        ∧ (dirCachePut slot fail).1.tempMetadataExists = false
        ∧ (fail ≠ .noFail → (dirCachePut slot fail).2.2 = .writeFailed)) := by
  obtain ⟨p, t, m, w⟩ := slot
  cases m <;> cases fail <;> simp [dirCachePut]

/-- Claim C2, witness for the amended theorem at concrete slots: a
committed slot rejects the put, and a failing put on a fresh slot leaves
no temporary metadata file. -/
theorem C2_put_commit_discipline_witness :
    dirCachePut ⟨false, false, true, false⟩ .noFail
      = (⟨false, false, true, false⟩, [.mkdirLocation], .alreadyExists)
    ∧ (dirCachePut ⟨false, false, false, false⟩ .duringJsonDump).1.tempMetadataExists = false :=
  ⟨(C2_put_commit_discipline ⟨false, false, true, false⟩ .noFail).1 rfl,
   ((C2_put_commit_discipline ⟨false, false, false, false⟩ .duringJsonDump).2 rfl).2.2.1⟩

theorem sublistTempRename :
    List.Sublist [FsEvent.writeFile tempMetadataFileName,
        FsEvent.renameFile tempMetadataFileName metadataFileName]
      [FsEvent.mkdirLocation, .formatWrite, .computeChecksum,
       .writeFile tempMetadataFileName, .populateWeakCache,
       .renameFile tempMetadataFileName metadataFileName] := by decide

/-- Claim C5, counterexample: the temporary metadata file is *not* named
`metadata.json.temp`.  The source computes it as
`metadata_location.with_suffix(".temp")` (step.py:133), and `with_suffix`
replaces the existing `.json` suffix, yielding `metadata.temp`: the
successful put on a fresh slot writes `metadata.temp` and never touches
a file named `metadata.json.temp`. -/
theorem C5_counterexample :
    tempMetadataFileName = "metadata.temp"
    ∧ FsEvent.writeFile "metadata.temp"
        ∈ (dirCachePut ⟨false, false, false, false⟩ .noFail).2.1
    ∧ FsEvent.writeFile "metadata.json.temp"
        ∉ (dirCachePut ⟨false, false, false, false⟩ .noFail).2.1 := by
  refine ⟨by decide, by decide, by decide⟩

/-- Claim C5 (amended): in every successful `DirectoryStepCache` put the
metadata object is first written to the temporary file computed as
`metadata_location.with_suffix(".temp")` — which is `metadata.temp`,
because `with_suffix` *replaces* the `.json` suffix rather than
appending — and then that same file is atomically renamed to
`metadata.json` as the commit marker: the trace contains the write of
`metadata.temp` strictly before the rename of `metadata.temp` to
`metadata.json`, and after it `metadata.json` exists and the temporary
file is gone. -/
theorem C5_metadata_temp_then_rename (slot : Slot) (fail : PutFail)
    (h : (dirCachePut slot fail).2.2 = .success) :
    tempMetadataFileName = "metadata.temp"
    ∧ List.Sublist [FsEvent.writeFile tempMetadataFileName,
        FsEvent.renameFile tempMetadataFileName metadataFileName]
        (dirCachePut slot fail).2.1
    ∧ (dirCachePut slot fail).1.metadataExists = true
    ∧ (dirCachePut slot fail).1.tempMetadataExists = false := by
  obtain ⟨p, t, m, w⟩ := slot
  cases m <;> cases fail <;> first
    | exact ⟨by decide, sublistTempRename, rfl, rfl⟩
    | exact absurd h (by simp [dirCachePut])

/-- Claim C5, witness for the amended theorem: the successful put on a
fresh slot. -/
theorem C5_metadata_temp_then_rename_witness :
    (dirCachePut ⟨false, false, false, false⟩ .noFail).2.2 = .success
    ∧ tempMetadataFileName = "metadata.temp"
    ∧ List.Sublist [FsEvent.writeFile tempMetadataFileName,
        FsEvent.renameFile tempMetadataFileName metadataFileName]
        (dirCachePut ⟨false, false, false, false⟩ .noFail).2.1 :=
  ⟨rfl, (C5_metadata_temp_then_rename ⟨false, false, false, false⟩ .noFail rfl).1,
   (C5_metadata_temp_then_rename ⟨false, false, false, false⟩ .noFail rfl).2.1⟩

/-- Claim C7: whenever a full pass over the unparsed queue parses no
step (`steps_parsed == 0`) while deferred entries remain, the resolver
fails with the "Cannot parse steps" configuration error listing exactly
the deferred step names; when the pass made progress, the deferred queue
is swapped in and the loop continues. -/
theorem C7_zero_progress_fails (fuel : Nat)
    (unparsed deferred : List (String × StepParams))
    (parsed parsed' : List String) (progress : Nat)
    (h : runPass unparsed parsed = .ok (parsed', deferred, progress))
    (hd : deferred ≠ []) :
    (progress = 0 →
        stepGraphLoop (fuel + 1) unparsed parsed
          = .error (.cannotParseSteps (deferred.map Prod.fst)))
    ∧ (progress ≠ 0 →
        stepGraphLoop (fuel + 1) unparsed parsed
          = stepGraphLoop fuel deferred parsed') := by
  constructor <;> intro hp <;> simp [stepGraphLoop, h, hd, hp]

/-- Claim C7, witness: two steps referring to each other make the first
pass defer both with zero progress, and the resolver fails listing both
names. -/
theorem C7_zero_progress_fails_witness :
    stepGraphFromParams [("a", ⟨["b"]⟩), ("b", ⟨["a"]⟩)]
      = .error (.cannotParseSteps ["a", "b"]) := by
  have h := (C7_zero_progress_fails 2 [("a", ⟨["b"]⟩), ("b", ⟨["a"]⟩)]
      [("a", ⟨["b"]⟩), ("b", ⟨["a"]⟩)] [] [] 0 (by rfl) (by simp)).1 rfl
  simpa [stepGraphFromParams] using h

/-- Claim C8, counterexample: for a step with `cache_results=False`
(e.g. a non-deterministic step with both constants unset), a second
`result` call after a prior successful one invokes `run` again — the
second call's run trace is non-empty — because the result was never
cached. -/
theorem C8_counterexample :
    (Step.result ⟨⟨"N", false, none, "N", false, 7, none⟩, []⟩
        ((Step.result ⟨⟨"N", false, none, "N", false, 7, none⟩, []⟩ []).2.1)).2.2
      ≠ [] := by decide

/-- Claim C8 (amended): for every Step `s` with resolved
`cache_results=True` and every memory cache, re-invoking
`result(s, cache)` after a prior successful call invokes `s.run` — and
any dependency's `run` — zero additional times, and leaves the cache
unchanged: the first call stored the result under the fingerprint, so
the second call returns it from the cache immediately. -/
theorem C8_result_memoized (s : Step) (cache : List (String × RVal))
    (h : s.info.cacheResults = true) :
    (Step.result s ((Step.result s cache).2.1)).2.2 = []
    ∧ (Step.result s ((Step.result s cache).2.1)).2.1 = (Step.result s cache).2.1 := by
  obtain ⟨info, kwargs⟩ := s
  simp only [Step.result, Step.toValue] at h ⊢
  cases hl : List.lookup (uidOf info kwargs) cache with
  | some v => simp [resultVal, hl]
  | none =>
      simp only [resultVal, hl] at h ⊢
      simp [h, memoryCacheSet, List.lookup]

/-- Claim C8, witness for the amended theorem: a cacheable step with no
dependencies is run once and not re-run by a second `result` call. -/
theorem C8_result_memoized_witness :
    (Step.result ⟨⟨"C", true, none, "C", true, 0, none⟩, []⟩
        ((Step.result ⟨⟨"C", true, none, "C", true, 0, none⟩, []⟩ []).2.1)).2.2 = []
    ∧ (Step.result ⟨⟨"C", true, none, "C", true, 0, none⟩, []⟩
        ((Step.result ⟨⟨"C", true, none, "C", true, 0, none⟩, []⟩ []).2.1)).2.1
      = (Step.result ⟨⟨"C", true, none, "C", true, 0, none⟩, []⟩ []).2.1 :=
  C8_result_memoized ⟨⟨"C", true, none, "C", true, 0, none⟩, []⟩ [] rfl

/-- Claim C6: for every deterministic Step whose fingerprint has not yet
been memoized, `unique_id()` returns
`"<ClassTag>" [ "-" VERSION ] "-" H` where `H` is the first 32
characters of the deterministic content hash of the kwargs after
replacing each nested Step by its own fingerprint (recursing through
sequences, sets and mappings), and a repeated call on the same instance
returns the same string from the memo. -/
theorem C6_unique_id_format (s : Step) (hdet : s.info.deterministic = true)
    (hfresh : s.info.uidCache = none) :
    s.uniqueIdS.1 =
        s.info.className
          ++ (match s.info.version with | some v => "-" ++ v | none => "")
          ++ "-"
          ++ (hashObject (.dict (replaceHashesKVs s.kwargs))).take 32
    ∧ s.uniqueIdS.2.uniqueIdS.1 = s.uniqueIdS.1 := by
  obtain ⟨info, kwargs⟩ := s
  simp_all [Step.uniqueIdS, computeUid]

/-- Claim C6, witness: the deterministic step of spec scenario 4
(class `K`, `VERSION="v2"`, kwargs `{a: 1, b: [2, 3]}`); its fingerprint
is `K-v2-` followed by the canonical hash of the kwargs, and the second
call agrees. -/
theorem C6_unique_id_format_witness :
    (Step.uniqueIdS ⟨⟨"K", true, some "v2", "K", true, 0, none⟩,
        [("a", .prim 1), ("b", .seq [.prim 2, .prim 3])]⟩).1
      = "K-v2-"
          ++ (hashObject (.dict (replaceHashesKVs
                [("a", .prim 1), ("b", .seq [.prim 2, .prim 3])]))).take 32
    ∧ (Step.uniqueIdS ⟨⟨"K", true, some "v2", "K", true, 0, none⟩,
        [("a", .prim 1), ("b", .seq [.prim 2, .prim 3])]⟩).2.uniqueIdS.1
      = (Step.uniqueIdS ⟨⟨"K", true, some "v2", "K", true, 0, none⟩,
        [("a", .prim 1), ("b", .seq [.prim 2, .prim 3])]⟩).1
    ∧ (Step.uniqueIdS ⟨⟨"K", true, some "v2", "K", true, 0, none⟩,
        [("a", .prim 1), ("b", .seq [.prim 2, .prim 3])]⟩).1
      = "K-v2-d[a=i:1,b=l[i:2,i:3]]" :=
  ⟨(C6_unique_id_format _ rfl rfl).1, (C6_unique_id_format _ rfl rfl).2, by rfl⟩

mutual

/-- Bookkeeping invariant of `dryRunVal`: see `DryInv`. -/
theorem dryRunVal_inv (v : Value) (cached : List String)
    (h : noCollideVal v = true) :
    DryInv (stepUidsVal v) cached (dryRunVal v cached) := by
  cases v with
  | prim n =>
      exact ⟨[], by simp [dryRunVal], by simp [dryRunVal, falseCount],
        List.nodup_nil, by simp, by simp⟩
  | str s =>
      exact ⟨[], by simp [dryRunVal], by simp [dryRunVal, falseCount],
        List.nodup_nil, by simp, by simp⟩
  | seq vs =>
      have hr := dryRunList_inv vs cached (by simpa [noCollideVal] using h)
      simpa only [dryRunVal, stepUidsVal] using hr
  | set vs =>
      have hr := dryRunList_inv vs cached (by simpa [noCollideVal] using h)
      simpa only [dryRunVal, stepUidsVal] using hr
  | dict kvs =>
      have hr := dryRunKVs_inv kvs cached (by simpa [noCollideVal] using h)
      simpa only [dryRunVal, stepUidsVal] using hr
  | step info kwargs =>
      have hc : uidOf info kwargs ∉ stepUidsKVs kwargs ∧ noCollideKVs kwargs = true := by
        simpa [noCollideVal] using h
      by_cases hmem : uidOf info kwargs ∈ cached
      · refine ⟨[], by simp [dryRunVal, hmem], ?_, List.nodup_nil, by simp, by simp⟩
        simp [dryRunVal, hmem, falseCount]
      · obtain ⟨news1, h1, h2, h3, h4, h5⟩ := dryRunKVs_inv kwargs cached hc.2
        refine ⟨uidOf info kwargs :: news1, ?_, ?_, ?_, ?_, ?_⟩
        · simp only [dryRunVal, if_neg hmem]
          simp [h1]
        · simp only [dryRunVal, if_neg hmem]
          rw [falseCount_append, h2]
          rfl
        · exact List.nodup_cons.mpr ⟨fun hbad => hc.1 (h5 _ hbad), h3⟩
        · intro u hu
          rcases List.mem_cons.mp hu with rfl | hu
          · exact hmem
          · exact h4 u hu
        · intro u hu
          rcases List.mem_cons.mp hu with rfl | hu
          · simp [stepUidsVal]
          · simp only [stepUidsVal, List.mem_cons]
            exact Or.inr (h5 u hu)

/-- Bookkeeping invariant of `dryRunList`: see `DryInv`. -/
theorem dryRunList_inv (vs : List Value) (cached : List String)
    (h : noCollideList vs = true) :
    DryInv (stepUidsList vs) cached (dryRunList vs cached) := by
  cases vs with
  | nil =>
      exact ⟨[], by simp [dryRunList], by simp [dryRunList, falseCount],
        List.nodup_nil, by simp, by simp⟩
  | cons v rest =>
      have hsplit : noCollideVal v = true ∧ noCollideList rest = true := by
        simpa [noCollideList, Bool.and_eq_true] using h
      obtain ⟨news1, h1, h2, h3, h4, h5⟩ := dryRunVal_inv v cached hsplit.1
      obtain ⟨news2, g1, g2, g3, g4, g5⟩ :=
        dryRunList_inv rest (dryRunVal v cached).2 hsplit.2
      refine ⟨news2 ++ news1, ?_, ?_, ?_, ?_, ?_⟩
      · simp only [dryRunList]
        rw [g1, h1, List.append_assoc]
      · simp only [dryRunList, falseCount_append]
        rw [h2, g2]
        simp [Nat.add_comm]
      · refine List.nodup_append.mpr ⟨g3, h3, ?_⟩
        intro a ha ha1
        exact g4 a ha (by rw [h1]; exact List.mem_append.mpr (Or.inl ha1))
      · intro u hu
        rcases List.mem_append.mp hu with hu2 | hu1
        · have hnc := g4 u hu2
          rw [h1] at hnc
          exact fun hcc => hnc (List.mem_append.mpr (Or.inr hcc))
        · exact h4 u hu1
      · intro u hu
        simp only [stepUidsList, List.mem_append]
        rcases List.mem_append.mp hu with hu2 | hu1
        · exact Or.inr (g5 u hu2)
        · exact Or.inl (h5 u hu1)

/-- Bookkeeping invariant of `dryRunKVs`: see `DryInv`. -/
theorem dryRunKVs_inv (kvs : List (String × Value)) (cached : List String)
    (h : noCollideKVs kvs = true) :
    DryInv (stepUidsKVs kvs) cached (dryRunKVs kvs cached) := by
  cases kvs with
  | nil =>
      exact ⟨[], by simp [dryRunKVs], by simp [dryRunKVs, falseCount],
        List.nodup_nil, by simp, by simp⟩
  | cons kv rest =>
      obtain ⟨k, v⟩ := kv
      have hsplit : noCollideVal v = true ∧ noCollideKVs rest = true := by
        simpa [noCollideKVs, Bool.and_eq_true] using h
      obtain ⟨news1, h1, h2, h3, h4, h5⟩ := dryRunVal_inv v cached hsplit.1
      obtain ⟨news2, g1, g2, g3, g4, g5⟩ :=
        dryRunKVs_inv rest (dryRunVal v cached).2 hsplit.2
      refine ⟨news2 ++ news1, ?_, ?_, ?_, ?_, ?_⟩
      · simp only [dryRunKVs]
        rw [g1, h1, List.append_assoc]
      · simp only [dryRunKVs, falseCount_append]
        rw [h2, g2]
        simp [Nat.add_comm]
      · refine List.nodup_append.mpr ⟨g3, h3, ?_⟩
        intro a ha ha1
        exact g4 a ha (by rw [h1]; exact List.mem_append.mpr (Or.inl ha1))
      · intro u hu
        rcases List.mem_append.mp hu with hu2 | hu1
        · have hnc := g4 u hu2
          rw [h1] at hnc
          exact fun hcc => hnc (List.mem_append.mpr (Or.inr hcc))
        · exact h4 u hu1
      · intro u hu
        simp only [stepUidsKVs, List.mem_append]
        rcases List.mem_append.mp hu with hu2 | hu1
        · exact Or.inr (g5 u hu2)
        · exact Or.inl (h5 u hu1)

end

/-- Claim C4 (amended): a full `dry_run` walk started from a root emits,
for each distinct step (steps are identified by fingerprint), at most
one pair with flag `False` — the already-cached check plus the
`cached_steps.add(self)` after emission ensure a step is expanded at
most once, provided no step shares its (truncated-hash) fingerprint with
a step nested strictly below it.  Concretely: the final `cached_steps`
set extends the initial one by a duplicate-free block of fingerprints
that were not cached on entry, and the number of `(name, False)` pairs
emitted equals the size of that block.  The original "exactly once, one
pair per distinct step" fails: a step reached again on a second path is
emitted again with flag `True`, and steps below an initially-cached step
are not emitted at all. -/
theorem C4_dry_run_expands_each_step_at_most_once (s : Step)
    (cached : List String) (h : noCollideVal s.toValue = true) :
    ∃ news : List String,
      (Step.dryRun s cached).2 = news ++ cached
      ∧ news.Nodup
      ∧ (∀ u ∈ news, u ∉ cached)
      ∧ falseCount (Step.dryRun s cached).1 = news.length := by
  obtain ⟨news, h1, h2, h3, h4, _⟩ := dryRunVal_inv s.toValue cached h
  exact ⟨news, h1, h3, h4, h2⟩

/-- Claim C4, witness for the amended theorem: the diamond DAG of the
counterexample satisfies the no-fingerprint-collision hypothesis, and
its walk adds a duplicate-free block of four fingerprints matching its
four `(name, False)` emissions. -/
theorem C4_dry_run_expands_witness :
    ∃ news : List String,
      (Step.dryRun
          ⟨⟨"A", true, none, "A", true, 0, none⟩,
            [("b", .step ⟨"B", true, none, "B", true, 0, none⟩
                    [("x", .step ⟨"D", true, none, "D", true, 0, none⟩ [])]),
             ("c", .step ⟨"C", true, none, "C", true, 0, none⟩
                    [("x", .step ⟨"D", true, none, "D", true, 0, none⟩ [])])]⟩
          []).2 = news ++ []
      ∧ news.Nodup
      ∧ (∀ u ∈ news, u ∉ ([] : List String))
      ∧ falseCount (Step.dryRun
          ⟨⟨"A", true, none, "A", true, 0, none⟩,
            [("b", .step ⟨"B", true, none, "B", true, 0, none⟩
                    [("x", .step ⟨"D", true, none, "D", true, 0, none⟩ [])]),
             ("c", .step ⟨"C", true, none, "C", true, 0, none⟩
                    [("x", .step ⟨"D", true, none, "D", true, 0, none⟩ [])])]⟩
          []).1 = news.length :=
  C4_dry_run_expands_each_step_at_most_once _ [] (by decide)

/-- Claim C4, counterexample: in the diamond DAG `A → {B, C}`,
`B → D`, `C → D` with an empty initial `already_cached` set, a full
`dry_run` walk from `A` emits step `D` twice — `("D", False)` when first
reached through `B` and `("D", True)` when reached again through `C` —
so a step reachable along two different paths gets two `(name, flag)`
pairs, not one. -/
theorem C4_counterexample :
    (Step.dryRun
        ⟨⟨"A", true, none, "A", true, 0, none⟩,
          [("b", .step ⟨"B", true, none, "B", true, 0, none⟩
                  [("x", .step ⟨"D", true, none, "D", true, 0, none⟩ [])]),
           ("c", .step ⟨"C", true, none, "C", true, 0, none⟩
                  [("x", .step ⟨"D", true, none, "D", true, 0, none⟩ [])])]⟩
        []).1
      = [("D", false), ("B", false), ("D", true), ("C", false), ("A", false)]
    ∧ ((Step.dryRun
        ⟨⟨"A", true, none, "A", true, 0, none⟩,
          [("b", .step ⟨"B", true, none, "B", true, 0, none⟩
                  [("x", .step ⟨"D", true, none, "D", true, 0, none⟩ [])]),
           ("c", .step ⟨"C", true, none, "C", true, 0, none⟩
                  [("x", .step ⟨"D", true, none, "D", true, 0, none⟩ [])])]⟩
        []).1.filter (fun p => p.1 == "D")).length = 2 := by
  constructor <;> decide

end StepPy
